import Mathlib

/-!
Shallow embedding of the `stonks` ingestion pipeline.

The repository persists FFXIV market sales into SQLite.  Two source files
carry the logic verified here:

* `database.py` — class `StonksDatabase` with `setup_tables`, `insert_world`,
  `get_item_name`, `store_item_name` and `insert_sale`;
* `scrape.py` — module-level `store_item_name`, `find_world_in_list`,
  `get_worlds` and `process_sale`.

SQLite tables are modelled as association lists / row lists, the process-local
caches (`item_cache` / `ITEM_LAST_CHECKED`) as association lists from item id
to the last-checked time, and every call to `time()` as an explicit `now`
argument.  Remote HTTP responses are oracles passed as arguments: the XIVAPI
v2 response of `database.py` either has a `fields.Name` (success), lacks
`fields` with `code = 404` (not found), or lacks `fields` with another code
(error); the legacy response consumed by `scrape.py` either has a `Name_en`
key or not (a missing key raises `KeyError`).  A raised Python exception is
modelled as an explicit failure outcome carrying the state at the raise point.
-/

/-- Association-list lookup, first binding wins (SQLite point read by primary
key / Python dict lookup). -/
def alookup {α : Type} (k : Int) : List (Int × α) → Option α
  | [] => none
  | (k', v) :: rest => if k' = k then some v else alookup k rest

/-- Python dict assignment `d[k] = v`: overwrite the binding if present,
append otherwise. -/
def dictInsert {α : Type} (k : Int) (v : α) : List (Int × α) → List (Int × α)
  | [] => [(k, v)]
  | (k', v') :: rest =>
      if k' = k then (k, v) :: rest else (k', v') :: dictInsert k v rest

/-- One row of the `sales` table:
`(timestamp INT, world_id INT, item_id INT, price INT, quantity INT, buyer TEXT)`. -/
structure SaleRow where
  timestamp : Int
  world_id : Int
  item_id : Int
  price : Int
  quantity : Int
  buyer : String
deriving DecidableEq, Repr

/-- The persistent SQLite state (tables `items`, `worlds`, `sales`) together
with the process-local item cache (`StonksDatabase.item_cache` in
`database.py`, the `ITEM_LAST_CHECKED` global in `scrape.py`).  `world_name`
is nullable in the schema, hence `Option String`. -/
structure StonksDatabase where
  items : List (Int × String)
  worlds : List (Int × Option String)
  sales : List SaleRow
  item_cache : List (Int × Int)
deriving DecidableEq, Repr

/-- The state right after `setup_tables`: all tables empty, empty cache. -/
def emptyDB : StonksDatabase := ⟨[], [], [], []⟩

/-- `database.py` `insert_world`: `INSERT INTO worlds … ON CONFLICT DO
NOTHING` (also the literal SQL used inside `scrape.py` `get_worlds`). -/
def insert_world (db : StonksDatabase) (world_id : Int) (world_name : Option String) :
    StonksDatabase :=
  if (alookup world_id db.worlds).isSome then db
  else { db with worlds := db.worlds ++ [(world_id, world_name)] }

/-- `database.py` `get_item_name`: `SELECT item_name FROM items WHERE
item_id = ?`, `None` when absent. -/
def get_item_name (db : StonksDatabase) (item_id : Int) : Option String :=
  alookup item_id db.items

/-- The cache test of `store_item_name` (both files):
`item_id in cache and cache[item_id] < time() + 30`. -/
def cacheFresh (db : StonksDatabase) (now item_id : Int) : Bool :=
  match alookup item_id db.item_cache with
  | some t => decide (t < now + 30)
  | none => false

/-- Shape of the XIVAPI v2 JSON consumed by `database.py`
`store_item_name`: `fields.Name` present, or no `fields` with `code = 404`,
or no `fields` with any other code. -/
inductive XivResponse where
  | success (name : String)
  | notFound
  | err
deriving DecidableEq, Repr

/-- Which branch `database.py` `store_item_name` returned through; `cacheHit`
and `storeHit` return before the HTTP request, the `remote…` constructors
record that a remote lookup was issued and its classification, and
`insertError` models the `IntegrityError` raised by the bare
`INSERT INTO items` when a row with the key already exists (reachable when
the stored name is falsy, see `store_item_name`). -/
inductive ResolveStep where
  | cacheHit
  | storeHit
  | remoteSuccess
  | remoteNotFound
  | remoteError
  | insertError
deriving DecidableEq, Repr

/-- `True` exactly when the step issued the HTTP request. -/
def remoteIssued : ResolveStep → Bool
  | ResolveStep.cacheHit => false
  | ResolveStep.storeHit => false
  | _ => true

/-- The placeholder `"Unknown Item %s" % item_id` synthesized on a 404. -/
def unknownItemName (item_id : Int) : String :=
  "Unknown Item " ++ toString item_id

/-- `database.py` `store_item_name`.  Returns the new state and the branch
taken.  Order of the source: (1) cache check, early return; (2) cache write
`item_cache[id] = time()`; (3) `if self.get_item_name(item_id_int):` — a
truthiness test of the returned name, so the early return happens only for a
stored NON-EMPTY name (the empty string is falsy in Python and falls
through); (4) HTTP request; on success or 404 a plain `INSERT INTO items`
(no `ON CONFLICT`) plus commit — when a row with the key already exists
(the falsy-name fall-through) this raises `IntegrityError`, modelled as
`insertError` with the state at the raise point; on any other `fields`-less
response a bare `return`. -/
def store_item_name (db : StonksDatabase) (now item_id : Int) (resp : XivResponse) :
    StonksDatabase × ResolveStep :=
  if cacheFresh db now item_id then (db, ResolveStep.cacheHit)
  else
    let db1 := { db with item_cache := dictInsert item_id now db.item_cache }
    match get_item_name db1 item_id with
    | some name =>
      if name = "" then
        match resp with
        | XivResponse.err => (db1, ResolveStep.remoteError)
        | _ => (db1, ResolveStep.insertError)
      else (db1, ResolveStep.storeHit)
    | none =>
      match resp with
      | XivResponse.success name =>
          ({ db1 with items := db1.items ++ [(item_id, name)] }, ResolveStep.remoteSuccess)
      | XivResponse.notFound =>
          ({ db1 with items := db1.items ++ [(item_id, unknownItemName item_id)] },
            ResolveStep.remoteNotFound)
      | XivResponse.err => (db1, ResolveStep.remoteError)

/-- Row predicate for the `sales` primary key `(timestamp, item_id, price)`. -/
def saleKeyMatch (ts item price : Int) (r : SaleRow) : Bool :=
  decide (r.timestamp = ts) && decide (r.item_id = item) && decide (r.price = price)

/-- Whether some row with the given primary key exists. -/
def hasSaleKey (db : StonksDatabase) (ts item price : Int) : Bool :=
  db.sales.any (saleKeyMatch ts item price)

/-- The first stored row with the given primary key. -/
def findSale (db : StonksDatabase) (ts item price : Int) : Option SaleRow :=
  db.sales.find? (saleKeyMatch ts item price)

/-- Number of stored rows with the given primary key. -/
def saleKeyCount (db : StonksDatabase) (ts item price : Int) : Nat :=
  db.sales.countP (saleKeyMatch ts item price)

/-- `database.py` `insert_sale`: reject timestamps older than
`time() - 60*60*24*7`; otherwise `INSERT … ON CONFLICT DO NOTHING` and
return `cur.rowcount > 0`. -/
def insert_sale (db : StonksDatabase) (now timestamp world_id item_id price quantity : Int)
    (buyer : String) : StonksDatabase × Bool :=
  let time_last_week := now - 604800
  if timestamp < time_last_week then (db, false)
  else if hasSaleKey db timestamp item_id price then (db, false)
  else
    ({ db with sales := db.sales ++ [⟨timestamp, world_id, item_id, price, quantity, buyer⟩] },
      true)

/-- Run a sequence of `database.py` `store_item_name` calls for one item id,
each with its own current time and remote-response oracle; collects the
branch taken by each call. -/
def runCalls (db : StonksDatabase) (item_id : Int) :
    List (Int × XivResponse) → StonksDatabase × List ResolveStep
  | [] => (db, [])
  | (now, resp) :: rest =>
    let r := store_item_name db now item_id resp
    let rr := runCalls r.1 item_id rest
    (rr.1, r.2 :: rr.2)

/-- `scrape.py` `store_item_name`.  Same cache and store checks as the
`database.py` version, but the remote branch is
`get(…).json()['Name_en']`: when the response lacks `Name_en` the
subscript raises `KeyError`.  The `Bool` is `false` exactly when the call
raises; the returned state is the state at the raise point. -/
def scrape_store_item_name (db : StonksDatabase) (now item_id : Int)
    (resp : Option String) : StonksDatabase × Bool :=
  if cacheFresh db now item_id then (db, true)
  else
    let db1 := { db with item_cache := dictInsert item_id now db.item_cache }
    match get_item_name db1 item_id with
    | some _ => (db1, true)
    | none =>
      match resp with
      | some name => ({ db1 with items := db1.items ++ [(item_id, name)] }, true)
      | none => (db1, false)

/-- One decoded sale of an inbound feed message:
`{timestamp, pricePerUnit, quantity, buyerName}`. -/
structure SaleEvent where
  timestamp : Int
  pricePerUnit : Int
  quantity : Int
  buyerName : String
deriving DecidableEq, Repr

/-- How one `scrape.py` `process_sale` call ended.  `worldKeyError` models
the `KeyError` raised by `WORLDS[world_id]`, `nameError` the `KeyError`
raised inside `store_item_name`; both abort the call before the sales
`INSERT`. -/
inductive ProcessOutcome where
  | worldKeyError
  | nameError
  | tooOld
  | done
deriving DecidableEq, Repr

/-- `scrape.py` `process_sale`.  Source order: read the sale fields, read
`WORLDS[world_id]` (raises when absent), call `store_item_name`, apply the
7-day window check, then `INSERT INTO sales … ON CONFLICT DO NOTHING`.
`worlds` is the in-memory bootstrap map `WORLDS`; the result carries the
state at exit (for the error outcomes, the state when the exception was
raised). -/
def process_sale (worlds : List (Int × Option String)) (db : StonksDatabase) (now : Int)
    (item_id world_id : Int) (sale : SaleEvent) (resp : Option String) :
    StonksDatabase × ProcessOutcome :=
  match alookup world_id worlds with
  | none => (db, ProcessOutcome.worldKeyError)
  | some _ =>
    let r := scrape_store_item_name db now item_id resp
    if r.2 = false then (r.1, ProcessOutcome.nameError)
    else
      let time_last_week := now - 604800
      if sale.timestamp < time_last_week then (r.1, ProcessOutcome.tooOld)
      else if hasSaleKey r.1 sale.timestamp item_id sale.pricePerUnit then
        (r.1, ProcessOutcome.done)
      else
        ({ r.1 with sales := r.1.sales ++
            [⟨sale.timestamp, world_id, item_id, sale.pricePerUnit, sale.quantity,
              sale.buyerName⟩] },
          ProcessOutcome.done)

/-- One entry of the `https://universalis.app/api/v2/data-centers` response:
a data-centre name with its member world ids. -/
structure DataCenter where
  name : String
  worlds : List Int
deriving DecidableEq, Repr

/-- One entry of the `https://universalis.app/api/v2/worlds` response. -/
structure WorldEntry where
  id : Int
  name : String
deriving DecidableEq, Repr

/-- `scrape.py` `find_world_in_list`: first entry with a matching id, the
implicit `None` fall-through when no entry matches. -/
def find_world_in_list (worlds : List WorldEntry) (id : Int) : Option String :=
  match worlds with
  | [] => none
  | w :: rest => if w.id = id then some w.name else find_world_in_list rest id

/-- The `for dc in dc_list` loop of `get_worlds`: `dc_worlds` starts `[]`
and is overwritten by every data centre whose name equals the configured
`DC`, so the last match wins. -/
def selectDcWorlds (dcList : List DataCenter) (dc : String) : List Int :=
  dcList.foldl (fun acc d => if d.name = dc then d.worlds else acc) []

/-- One iteration of the world-registration loop in `get_worlds`:
`worlds[world] = find_world_in_list(world_list, world)` and the
insert-or-ignore into the `worlds` table. -/
def getWorldsStep (worldList : List WorldEntry)
    (acc : List (Int × Option String) × StonksDatabase) (w : Int) :
    List (Int × Option String) × StonksDatabase :=
  let nm := find_world_in_list worldList w
  (dictInsert w nm acc.1, insert_world acc.2 w nm)

/-- `scrape.py` `get_worlds`.  `dcList` and `worldList` are the two
directory responses, `dc` the configured region (`DC = "Light"`).  `none`
models `exit(1)` on an empty region: the process halts, nothing is
subscribed.  Otherwise returns the in-memory `{world_id: world_name}` map
together with the state after registering every world. -/
def get_worlds (db : StonksDatabase) (dcList : List DataCenter)
    (worldList : List WorldEntry) (dc : String) :
    Option (List (Int × Option String) × StonksDatabase) :=
  let dc_worlds := selectDcWorlds dcList dc
  if dc_worlds.length < 1 then none
  else some (dc_worlds.foldl (getWorldsStep worldList) ([], db))

/-! ### Helper lemmas -/

theorem alookup_cons {α : Type} (k : Int) (p : Int × α) (l : List (Int × α)) :
    alookup k (p :: l) = if p.1 = k then some p.2 else alookup k l := by
  cases p
  rfl

theorem dictInsert_cons {α : Type} (k : Int) (v : α) (p : Int × α) (l : List (Int × α)) :
    dictInsert k v (p :: l) =
      if p.1 = k then (k, v) :: l else p :: dictInsert k v l := by
  cases p
  rfl

theorem alookup_append_of_some {α : Type} {k : Int} {l1 : List (Int × α)} {v : α}
    (l2 : List (Int × α)) (h : alookup k l1 = some v) : alookup k (l1 ++ l2) = some v := by
  induction l1 with
  | nil => simp [alookup] at h
  | cons p rest ih =>
    rw [List.cons_append, alookup_cons]
    rw [alookup_cons] at h
    by_cases hk : p.1 = k
    · simpa [hk] using h
    · simp only [hk, if_false] at h ⊢
      exact ih h

theorem alookup_append_of_none {α : Type} {k : Int} {l1 : List (Int × α)}
    (l2 : List (Int × α)) (h : alookup k l1 = none) :
    alookup k (l1 ++ l2) = alookup k l2 := by
  induction l1 with
  | nil => simp
  | cons p rest ih =>
    rw [List.cons_append, alookup_cons]
    rw [alookup_cons] at h
    by_cases hk : p.1 = k
    · simp [hk] at h
    · simp only [hk, if_false] at h ⊢
      exact ih h

theorem alookup_dictInsert_self {α : Type} (k : Int) (v : α) (l : List (Int × α)) :
    alookup k (dictInsert k v l) = some v := by
  induction l with
  | nil => simp [dictInsert, alookup]
  | cons p rest ih =>
    rw [dictInsert_cons]
    by_cases hk : p.1 = k
    · simp [hk, alookup_cons]
    · simp only [hk, if_false]
      rw [alookup_cons]
      simp only [hk, if_false]
      exact ih

theorem alookup_dictInsert_ne {α : Type} {k k' : Int} (v : α) (l : List (Int × α))
    (h : ¬ k' = k) : alookup k (dictInsert k' v l) = alookup k l := by
  induction l with
  | nil => simp [dictInsert, alookup, h]
  | cons p rest ih =>
    rw [dictInsert_cons]
    by_cases hk : p.1 = k'
    · rw [if_pos hk, alookup_cons, alookup_cons]
      simp [hk, h]
    · rw [if_neg hk, alookup_cons, alookup_cons]
      by_cases hpk : p.1 = k
      · simp [hpk]
      · simp only [hpk, if_false]
        exact ih

theorem get_item_name_cache_irrelevant (db : StonksDatabase) (c : List (Int × Int))
    (item_id : Int) :
    get_item_name { db with item_cache := c } item_id = get_item_name db item_id := rfl

theorem store_item_name_cacheHit {db : StonksDatabase} {now item_id : Int}
    (resp : XivResponse) (h : cacheFresh db now item_id = true) :
    store_item_name db now item_id resp = (db, ResolveStep.cacheHit) := by
  unfold store_item_name
  simp [h]

theorem store_item_name_storeHit {db : StonksDatabase} {now item_id : Int}
    (resp : XivResponse) (hc : cacheFresh db now item_id = false) {n : String}
    (hn : ¬ n = "") (hs : get_item_name db item_id = some n) :
    store_item_name db now item_id resp =
      ({ db with item_cache := dictInsert item_id now db.item_cache },
        ResolveStep.storeHit) := by
  unfold store_item_name
  simp only [hc, Bool.false_eq_true, if_false]
  rw [get_item_name_cache_irrelevant, hs]
  simp only [hn, if_false]

theorem store_item_name_emptyName {db : StonksDatabase} {now item_id : Int}
    (resp : XivResponse) (hc : cacheFresh db now item_id = false)
    (hs : get_item_name db item_id = some "") :
    store_item_name db now item_id resp =
      ({ db with item_cache := dictInsert item_id now db.item_cache },
        match resp with
        | XivResponse.err => ResolveStep.remoteError
        | _ => ResolveStep.insertError) := by
  unfold store_item_name
  simp only [hc, Bool.false_eq_true, if_false]
  rw [get_item_name_cache_irrelevant, hs]
  cases resp <;> rfl

theorem unknownItemName_ne_empty (item_id : Int) : ¬ unknownItemName item_id = "" := by
  intro h
  have hd : (unknownItemName item_id).data = ("" : String).data := congrArg String.data h
  rw [unknownItemName] at hd
  rw [String.data_append] at hd
  simp at hd

theorem store_item_name_remote {db : StonksDatabase} {now item_id : Int}
    (resp : XivResponse) (hc : cacheFresh db now item_id = false)
    (hs : get_item_name db item_id = none) :
    store_item_name db now item_id resp =
      (let db1 := { db with item_cache := dictInsert item_id now db.item_cache }
       match resp with
       | XivResponse.success name =>
           ({ db1 with items := db1.items ++ [(item_id, name)] }, ResolveStep.remoteSuccess)
       | XivResponse.notFound =>
           ({ db1 with items := db1.items ++ [(item_id, unknownItemName item_id)] },
             ResolveStep.remoteNotFound)
       | XivResponse.err => (db1, ResolveStep.remoteError)) := by
  unfold store_item_name
  simp only [hc, Bool.false_eq_true, if_false]
  rw [get_item_name_cache_irrelevant, hs]

theorem store_item_name_of_stored {db : StonksDatabase} {now item_id : Int}
    (resp : XivResponse) {n : String} (hn : ¬ n = "")
    (hs : get_item_name db item_id = some n) :
    (store_item_name db now item_id resp).1.items = db.items ∧
    get_item_name (store_item_name db now item_id resp).1 item_id = some n ∧
    remoteIssued (store_item_name db now item_id resp).2 = false := by
  by_cases hc : cacheFresh db now item_id = true
  · rw [store_item_name_cacheHit resp hc]
    exact ⟨rfl, hs, rfl⟩
  · rw [store_item_name_storeHit resp (Bool.not_eq_true _ ▸ hc) hn hs]
    exact ⟨rfl, hs, rfl⟩

theorem runCalls_of_stored {item_id : Int} {n : String} (hn : ¬ n = "") :
    ∀ (calls : List (Int × XivResponse)) (db : StonksDatabase),
      get_item_name db item_id = some n →
      get_item_name (runCalls db item_id calls).1 item_id = some n ∧
      (runCalls db item_id calls).1.items = db.items ∧
      ∀ s ∈ (runCalls db item_id calls).2, remoteIssued s = false := by
  intro calls
  induction calls with
  | nil =>
    intro db hs
    exact ⟨hs, rfl, by simp [runCalls]⟩
  | cons c rest ih =>
    intro db hs
    obtain ⟨hitems, hname, hstep⟩ := @store_item_name_of_stored db c.1 item_id c.2 n hn hs
    obtain ⟨ih1, ih2, ih3⟩ := ih (store_item_name db c.1 item_id c.2).1 hname
    refine ⟨?_, ?_, ?_⟩
    · simpa [runCalls] using ih1
    · simp only [runCalls]
      rw [ih2, hitems]
    · intro s hsmem
      simp only [runCalls, List.mem_cons] at hsmem
      rcases hsmem with h1 | h2
      · rw [h1]; exact hstep
      · exact ih3 s h2

theorem insert_world_present {db : StonksDatabase} {world_id : Int} (n : Option String)
    (h : (alookup world_id db.worlds).isSome = true) : insert_world db world_id n = db := by
  unfold insert_world
  rw [if_pos h]

theorem insert_world_absent {db : StonksDatabase} {world_id : Int} (n : Option String)
    (h : alookup world_id db.worlds = none) :
    insert_world db world_id n = { db with worlds := db.worlds ++ [(world_id, n)] } := by
  unfold insert_world
  rw [if_neg (by simp [h])]

theorem store_item_name_notFound_eq {db : StonksDatabase} {now item_id : Int}
    (hc : cacheFresh db now item_id = false) (hs : get_item_name db item_id = none) :
    store_item_name db now item_id XivResponse.notFound =
      ({ db with items := db.items ++ [(item_id, unknownItemName item_id)],
                 item_cache := dictInsert item_id now db.item_cache },
        ResolveStep.remoteNotFound) := by
  rw [store_item_name_remote XivResponse.notFound hc hs]

theorem store_item_name_err_eq {db : StonksDatabase} {now item_id : Int}
    (hc : cacheFresh db now item_id = false) (hs : get_item_name db item_id = none) :
    store_item_name db now item_id XivResponse.err =
      ({ db with item_cache := dictInsert item_id now db.item_cache },
        ResolveStep.remoteError) := by
  rw [store_item_name_remote XivResponse.err hc hs]

theorem runCalls_allCacheHit {item_id t : Int} :
    ∀ (calls : List (Int × XivResponse)) (db : StonksDatabase),
      alookup item_id db.item_cache = some t →
      (∀ c ∈ calls, t < c.1 + 30) →
      runCalls db item_id calls = (db, calls.map (fun _ => ResolveStep.cacheHit)) := by
  intro calls
  induction calls with
  | nil => intro db _ _; rfl
  | cons c rest ih =>
    intro db hcache htimes
    have hfresh : cacheFresh db c.1 item_id = true := by
      unfold cacheFresh
      rw [hcache]
      simp [htimes c (by simp)]
    have he := @store_item_name_cacheHit db c.1 item_id c.2 hfresh
    simp only [runCalls, he, List.map_cons]
    rw [ih db hcache (fun x hx => htimes x (by simp [hx]))]

theorem insert_world_lookup_isSome {db : StonksDatabase} {w : Int} (k : Int)
    (n : Option String) (h : (alookup w db.worlds).isSome = true) :
    (alookup w (insert_world db k n).worlds).isSome = true := by
  by_cases hp : (alookup k db.worlds).isSome = true
  · rw [insert_world_present n hp]
    exact h
  · have hk : alookup k db.worlds = none := by
      cases hx : alookup k db.worlds
      · rfl
      · rw [hx] at hp
        simp at hp
    rw [insert_world_absent n hk]
    show (alookup w (db.worlds ++ [(k, n)])).isSome = true
    obtain ⟨v, hv⟩ := Option.isSome_iff_exists.mp h
    rw [alookup_append_of_some _ hv]
    rfl

theorem insert_world_lookup_self {db : StonksDatabase} (k : Int) (n : Option String) :
    (alookup k (insert_world db k n).worlds).isSome = true := by
  by_cases hp : (alookup k db.worlds).isSome = true
  · rw [insert_world_present n hp]
    exact hp
  · have hk : alookup k db.worlds = none := by
      cases hx : alookup k db.worlds
      · rfl
      · rw [hx] at hp
        simp at hp
    rw [insert_world_absent n hk]
    show (alookup k (db.worlds ++ [(k, n)])).isSome = true
    rw [alookup_append_of_none _ hk]
    simp [alookup]

theorem getWorldsStep_keeps (worldList : List WorldEntry)
    (acc : List (Int × Option String) × StonksDatabase) (x w : Int)
    (h1 : alookup w acc.1 = some (find_world_in_list worldList w))
    (h2 : (alookup w acc.2.worlds).isSome = true) :
    alookup w (getWorldsStep worldList acc x).1 = some (find_world_in_list worldList w) ∧
    (alookup w (getWorldsStep worldList acc x).2.worlds).isSome = true := by
  constructor
  · show alookup w (dictInsert x (find_world_in_list worldList x) acc.1)
      = some (find_world_in_list worldList w)
    by_cases hx : x = w
    · subst hx
      exact alookup_dictInsert_self ..
    · rw [alookup_dictInsert_ne _ _ hx]
      exact h1
  · exact insert_world_lookup_isSome x _ h2

theorem getWorldsStep_starts (worldList : List WorldEntry)
    (acc : List (Int × Option String) × StonksDatabase) (x : Int) :
    alookup x (getWorldsStep worldList acc x).1 = some (find_world_in_list worldList x) ∧
    (alookup x (getWorldsStep worldList acc x).2.worlds).isSome = true :=
  ⟨alookup_dictInsert_self .., insert_world_lookup_self x _⟩

theorem getWorlds_fold_good (worldList : List WorldEntry) :
    ∀ (l : List Int) (acc : List (Int × Option String) × StonksDatabase) (w : Int),
      w ∈ l ∨ (alookup w acc.1 = some (find_world_in_list worldList w) ∧
               (alookup w acc.2.worlds).isSome = true) →
      alookup w (l.foldl (getWorldsStep worldList) acc).1
        = some (find_world_in_list worldList w) ∧
      (alookup w (l.foldl (getWorldsStep worldList) acc).2.worlds).isSome = true := by
  intro l
  induction l with
  | nil =>
    intro acc w h
    rcases h with h | h
    · simp at h
    · simpa using h
  | cons x rest ih =>
    intro acc w h
    rw [List.foldl_cons]
    apply ih
    rcases h with h | h
    · rcases List.mem_cons.mp h with hx | hr
      · subst hx
        exact Or.inr (getWorldsStep_starts worldList acc w)
      · exact Or.inl hr
    · exact Or.inr (getWorldsStep_keeps worldList acc x w h.1 h.2)

theorem saleKeyMatch_self (ts world item price quantity : Int) (buyer : String) :
    saleKeyMatch ts item price ⟨ts, world, item, price, quantity, buyer⟩ = true := by
  simp [saleKeyMatch]

theorem hasSaleKey_false_count {db : StonksDatabase} {ts item price : Int}
    (h : hasSaleKey db ts item price = false) : saleKeyCount db ts item price = 0 := by
  unfold saleKeyCount
  rw [List.countP_eq_zero]
  intro r hr
  unfold hasSaleKey at h
  simp only [List.any_eq_false] at h
  simp [h r hr]

theorem hasSaleKey_false_find {db : StonksDatabase} {ts item price : Int}
    (h : hasSaleKey db ts item price = false) : findSale db ts item price = none := by
  unfold findSale
  rw [List.find?_eq_none]
  intro r hr
  unfold hasSaleKey at h
  simp only [List.any_eq_false] at h
  simp [h r hr]

theorem insert_sale_stale {db : StonksDatabase} {now ts : Int}
    (world item price quantity : Int) (buyer : String) (h : ts < now - 604800) :
    insert_sale db now ts world item price quantity buyer = (db, false) := by
  simp only [insert_sale]
  rw [if_pos h]

theorem insert_sale_dup {db : StonksDatabase} {now ts item price : Int}
    (world quantity : Int) (buyer : String) (h : ¬ ts < now - 604800)
    (hk : hasSaleKey db ts item price = true) :
    insert_sale db now ts world item price quantity buyer = (db, false) := by
  simp only [insert_sale]
  rw [if_neg h, if_pos hk]

theorem insert_sale_fresh {db : StonksDatabase} {now ts item price : Int}
    (world quantity : Int) (buyer : String) (h : ¬ ts < now - 604800)
    (hk : hasSaleKey db ts item price = false) :
    insert_sale db now ts world item price quantity buyer =
      ({ db with sales := db.sales ++ [⟨ts, world, item, price, quantity, buyer⟩] }, true) := by
  simp only [insert_sale]
  rw [if_neg h, if_neg (by simp [hk])]

/-! ### Claims -/

/-- A reachable prior state holding one sale row with key `(100, 46829,
4592000)`, inserted while it was inside the admission window
(`now = 100`). -/
def c1PriorDB : StonksDatabase :=
  (insert_sale emptyDB 100 100 402 46829 4592000 1 "Wyra Mhakaraca").1

/-- C1 (counterexample): at `now = 1000000` the sale with timestamp `100` is
older than 7 days, `insert_sale` returns `false` and leaves the table
unchanged — yet a row with key `(100, 46829, 4592000)` IS present
afterwards, because it was legitimately inserted while still fresh.  So
"no row with that key is present afterwards" fails as stated. -/
theorem c1_stale_counterexample :
    (insert_sale c1PriorDB 1000000 100 402 46829 4592000 1 "Wyra Mhakaraca").2 = false ∧
    (insert_sale c1PriorDB 1000000 100 402 46829 4592000 1 "Wyra Mhakaraca").1.sales
      = c1PriorDB.sales ∧
    hasSaleKey (insert_sale c1PriorDB 1000000 100 402 46829 4592000 1 "Wyra Mhakaraca").1
      100 46829 4592000 = true := by
  refine ⟨rfl, rfl, ?_⟩
  decide

/-- C1 (amended): for a timestamp strictly older than `now - 604800`,
`insert_sale` returns `false` and performs no write — the whole state is
unchanged; consequently a row with that key is present afterwards exactly
when it was present before (in particular, absent afterwards whenever it
was absent before). -/
theorem c1_stale_no_write (db : StonksDatabase)
    (now ts world item price quantity : Int) (buyer : String)
    (h : ts < now - 604800) :
    insert_sale db now ts world item price quantity buyer = (db, false) ∧
    (hasSaleKey db ts item price = false →
      hasSaleKey (insert_sale db now ts world item price quantity buyer).1 ts item price
        = false) := by
  have he : insert_sale db now ts world item price quantity buyer = (db, false) :=
    insert_sale_stale world item price quantity buyer h
  exact ⟨he, fun habs => by rw [he]; exact habs⟩

/-- C1 witness: concrete instance of `c1_stale_no_write` on the empty
store. -/
theorem c1_stale_no_write_witness :
    insert_sale emptyDB 1000000 100 402 46829 4592000 1 "B" = (emptyDB, false) ∧
    hasSaleKey (insert_sale emptyDB 1000000 100 402 46829 4592000 1 "B").1 100 46829 4592000
      = false :=
  ⟨(c1_stale_no_write emptyDB 1000000 100 402 46829 4592000 1 "B" (by decide)).1,
   (c1_stale_no_write emptyDB 1000000 100 402 46829 4592000 1 "B" (by decide)).2 (by decide)⟩

/-- C2: within the admission window, the first `insert_sale` on a fresh
`(timestamp, item_id, price)` key returns `true` and stores the row with
exactly the passed field values; any second call with the identical key —
whatever its current time, `world_id`, `quantity` or `buyer` — returns
`false`, leaves the state unchanged, and the row count for the key stays
`1` with the first call's field values intact. -/
theorem c2_fresh_insert_then_duplicate (db : StonksDatabase)
    (now ts world item price quantity : Int) (buyer : String)
    (hfresh : ¬ ts < now - 604800)
    (hnew : hasSaleKey db ts item price = false) :
    (insert_sale db now ts world item price quantity buyer).2 = true ∧
    findSale (insert_sale db now ts world item price quantity buyer).1 ts item price
      = some ⟨ts, world, item, price, quantity, buyer⟩ ∧
    saleKeyCount (insert_sale db now ts world item price quantity buyer).1 ts item price = 1 ∧
    ∀ (now2 world2 quantity2 : Int) (buyer2 : String),
      (insert_sale (insert_sale db now ts world item price quantity buyer).1
          now2 ts world2 item price quantity2 buyer2).2 = false ∧
      (insert_sale (insert_sale db now ts world item price quantity buyer).1
          now2 ts world2 item price quantity2 buyer2).1
        = (insert_sale db now ts world item price quantity buyer).1 ∧
      saleKeyCount (insert_sale (insert_sale db now ts world item price quantity buyer).1
          now2 ts world2 item price quantity2 buyer2).1 ts item price = 1 ∧
      findSale (insert_sale (insert_sale db now ts world item price quantity buyer).1
          now2 ts world2 item price quantity2 buyer2).1 ts item price
        = some ⟨ts, world, item, price, quantity, buyer⟩ := by
  have he : insert_sale db now ts world item price quantity buyer =
      ({ db with sales := db.sales ++ [⟨ts, world, item, price, quantity, buyer⟩] }, true) :=
    insert_sale_fresh world quantity buyer hfresh hnew
  have hfind : findSale (insert_sale db now ts world item price quantity buyer).1 ts item price
      = some ⟨ts, world, item, price, quantity, buyer⟩ := by
    rw [he]
    have h0 : db.sales.find? (saleKeyMatch ts item price) = none := hasSaleKey_false_find hnew
    simp [findSale, List.find?_append, h0, List.find?, saleKeyMatch_self]
  have hcount : saleKeyCount (insert_sale db now ts world item price quantity buyer).1
      ts item price = 1 := by
    rw [he]
    have hc0 : db.sales.countP (saleKeyMatch ts item price) = 0 := hasSaleKey_false_count hnew
    simp [saleKeyCount, List.countP_append, hc0, List.countP_cons, saleKeyMatch_self]
  have hkey : hasSaleKey (insert_sale db now ts world item price quantity buyer).1
      ts item price = true := by
    rw [he]
    simp [hasSaleKey, List.any_append, saleKeyMatch_self]
  refine ⟨by rw [he], hfind, hcount, ?_⟩
  intro now2 world2 quantity2 buyer2
  have he2 : insert_sale (insert_sale db now ts world item price quantity buyer).1
      now2 ts world2 item price quantity2 buyer2
      = ((insert_sale db now ts world item price quantity buyer).1, false) := by
    by_cases h2 : ts < now2 - 604800
    · exact insert_sale_stale world2 item price quantity2 buyer2 h2
    · exact insert_sale_dup world2 quantity2 buyer2 h2 hkey
  rw [he2]
  exact ⟨rfl, rfl, hcount, hfind⟩

/-- C2 witness: concrete instance of `c2_fresh_insert_then_duplicate` on the
empty store, with a duplicate differing in world, quantity and buyer. -/
theorem c2_fresh_insert_then_duplicate_witness :
    (insert_sale emptyDB 1000 1000 402 46829 4592000 1 "A").2 = true ∧
    (insert_sale (insert_sale emptyDB 1000 1000 402 46829 4592000 1 "A").1
        1000 1000 55 46829 4592000 3 "B").2 = false ∧
    saleKeyCount (insert_sale (insert_sale emptyDB 1000 1000 402 46829 4592000 1 "A").1
        1000 1000 55 46829 4592000 3 "B").1 1000 46829 4592000 = 1 := by
  have h := c2_fresh_insert_then_duplicate emptyDB 1000 1000 402 46829 4592000 1 "A"
    (by decide) (by decide)
  exact ⟨h.1, (h.2.2.2 1000 55 3 "B").1, (h.2.2.2 1000 55 3 "B").2.2.1⟩

/-- A state whose `items` table stores the empty string — falsy in Python —
as the name for item `7`, with an empty cache. -/
def c3EmptyNameDB : StonksDatabase := { emptyDB with items := [(7, "")] }

/-- C3 (counterexample): a name for id `7` IS already stored (the empty
string) and the cache layer misses, yet the call does not return at the
store layer: the remote lookup is issued — and when that lookup returns a
name or a 404, the bare `INSERT INTO items` then raises `IntegrityError` on
the existing key.  The source's store-layer check is
`if self.get_item_name(...)`, a truthiness test, not a presence test, so
"if a name for the id is already stored, the call returns with no remote
lookup" is false as stated. -/
theorem c3_truthiness_counterexample :
    get_item_name c3EmptyNameDB 7 = some "" ∧
    cacheFresh c3EmptyNameDB 100 7 = false ∧
    remoteIssued (store_item_name c3EmptyNameDB 100 7 XivResponse.err).2 = true ∧
    (store_item_name c3EmptyNameDB 100 7 (XivResponse.success "Yan Horn")).2
      = ResolveStep.insertError :=
  ⟨rfl, rfl, rfl, rfl⟩

/-- C3 (amended): name resolution consults, in order and short-circuiting:
(1) the local cache — an entry with stored time `t < now + 30` makes the
call return immediately with the whole state unchanged, and this holds for
every entry written at any past time `t ≤ now`, so the cache effectively
never expires; (2) the record store — if a NON-EMPTY (Python-truthy) name
for the id is already stored, the call returns with no remote lookup, the
tables untouched and only the cache timestamp rewritten; (3) the remote
lookup is issued exactly otherwise — when no name is stored for the id, or
the stored name is the empty string (falsy), in which case a non-error
response subsequently raises `IntegrityError` on the bare insert. -/
theorem c3_resolver_priority (db : StonksDatabase) (now item_id : Int) (resp : XivResponse) :
    (∀ t, alookup item_id db.item_cache = some t → t < now + 30 →
      store_item_name db now item_id resp = (db, ResolveStep.cacheHit)) ∧
    (∀ t, alookup item_id db.item_cache = some t → t ≤ now →
      store_item_name db now item_id resp = (db, ResolveStep.cacheHit)) ∧
    (∀ n, ¬ n = "" → cacheFresh db now item_id = false →
      get_item_name db item_id = some n →
      store_item_name db now item_id resp =
        ({ db with item_cache := dictInsert item_id now db.item_cache },
          ResolveStep.storeHit)) ∧
    (cacheFresh db now item_id = false →
      (get_item_name db item_id = none ∨ get_item_name db item_id = some "") →
      remoteIssued (store_item_name db now item_id resp).2 = true) := by
  refine ⟨?_, ?_, ?_, ?_⟩
  · intro t ht hlt
    apply store_item_name_cacheHit
    unfold cacheFresh
    rw [ht]
    simp [hlt]
  · intro t ht hle
    apply store_item_name_cacheHit
    unfold cacheFresh
    rw [ht]
    simp only [decide_eq_true_eq]
    omega
  · intro n hn hc hs
    exact store_item_name_storeHit resp hc hn hs
  · intro hc hs
    rcases hs with hs | hs
    · rw [store_item_name_remote resp hc hs]
      cases resp <;> rfl
    · rw [store_item_name_emptyName resp hc hs]
      cases resp <;> rfl

/-- C3 witness: the layers exercised on concrete states — a cache entry
from the past short-circuits everything, a stored non-empty name stops
before the remote lookup, and both the empty state and a stored-empty-name
state reach the remote lookup. -/
theorem c3_resolver_priority_witness :
    store_item_name { emptyDB with item_cache := [(7, 50)] } 100 7 XivResponse.err
      = ({ emptyDB with item_cache := [(7, 50)] }, ResolveStep.cacheHit) ∧
    store_item_name { emptyDB with items := [(7, "Yan Horn")] } 100 7 XivResponse.err
      = ({ emptyDB with items := [(7, "Yan Horn")],
                        item_cache := dictInsert 7 100 [] }, ResolveStep.storeHit) ∧
    remoteIssued (store_item_name emptyDB 100 7 XivResponse.err).2 = true ∧
    remoteIssued (store_item_name { emptyDB with items := [(7, "")] } 100 7
        XivResponse.err).2 = true := by
  refine ⟨(c3_resolver_priority { emptyDB with item_cache := [(7, 50)] } 100 7
      XivResponse.err).2.1 50 (by decide) (by decide),
    (c3_resolver_priority { emptyDB with items := [(7, "Yan Horn")] } 100 7
      XivResponse.err).2.2.1 "Yan Horn" (by decide) (by decide) rfl,
    (c3_resolver_priority emptyDB 100 7 XivResponse.err).2.2.2 (by decide) (Or.inl rfl),
    (c3_resolver_priority { emptyDB with items := [(7, "")] } 100 7
      XivResponse.err).2.2.2 (by decide) (Or.inr rfl)⟩

/-- C4: after a not-found remote response the placeholder
`"Unknown Item <id>"` is inserted into the `items` table; from then on
`get_item_name` returns that placeholder, and however many further
`store_item_name` calls are made for that id — at any times, with any remote
oracles — every one of them stops at the cache or store layer: the remote
lookup is never issued again and the stored name never changes. -/
theorem c4_not_found_permanent (db : StonksDatabase) (now item_id : Int)
    (hc : cacheFresh db now item_id = false)
    (hs : get_item_name db item_id = none) :
    (store_item_name db now item_id XivResponse.notFound).2 = ResolveStep.remoteNotFound ∧
    get_item_name (store_item_name db now item_id XivResponse.notFound).1 item_id
      = some (unknownItemName item_id) ∧
    ∀ calls : List (Int × XivResponse),
      get_item_name
          (runCalls (store_item_name db now item_id XivResponse.notFound).1 item_id calls).1
          item_id = some (unknownItemName item_id) ∧
      ∀ s ∈ (runCalls (store_item_name db now item_id XivResponse.notFound).1 item_id
          calls).2, remoteIssued s = false := by
  have he := store_item_name_notFound_eq hc hs
  have hlook : get_item_name (store_item_name db now item_id XivResponse.notFound).1 item_id
      = some (unknownItemName item_id) := by
    rw [he]
    show alookup item_id (db.items ++ [(item_id, unknownItemName item_id)])
      = some (unknownItemName item_id)
    rw [alookup_append_of_none _ hs]
    simp [alookup]
  refine ⟨by rw [he], hlook, ?_⟩
  intro calls
  obtain ⟨h1, _, h3⟩ := runCalls_of_stored (unknownItemName_ne_empty item_id) calls _ hlook
  exact ⟨h1, h3⟩

/-- C4 witness: on the empty state, a not-found response for id `7` stores
the placeholder; a later call (even a whole day later, with a
would-be-successful oracle) issues no remote lookup and the lookup still
returns the placeholder. -/
theorem c4_not_found_permanent_witness :
    (store_item_name emptyDB 100 7 XivResponse.notFound).2 = ResolveStep.remoteNotFound ∧
    get_item_name (runCalls (store_item_name emptyDB 100 7 XivResponse.notFound).1 7
        [(86500, XivResponse.success "Late")]).1 7 = some (unknownItemName 7) ∧
    ∀ s ∈ (runCalls (store_item_name emptyDB 100 7 XivResponse.notFound).1 7
        [(86500, XivResponse.success "Late")]).2, remoteIssued s = false := by
  have h := c4_not_found_permanent emptyDB 100 7 rfl rfl
  exact ⟨h.1, (h.2.2 [(86500, XivResponse.success "Late")]).1,
    (h.2.2 [(86500, XivResponse.success "Late")]).2⟩

/-- C5: a remote response that lacks the `fields` key and whose `code` is
not `404` writes nothing to the `items` table: the call returns with the
tables exactly as before, the only mutation being the cache-timestamp write
made before the remote call. -/
theorem c5_error_response_no_write (db : StonksDatabase) (now item_id : Int)
    (hc : cacheFresh db now item_id = false)
    (hs : get_item_name db item_id = none) :
    store_item_name db now item_id XivResponse.err =
      ({ db with item_cache := dictInsert item_id now db.item_cache },
        ResolveStep.remoteError) :=
  store_item_name_err_eq hc hs

/-- C5 witness: concrete instance on the empty state. -/
theorem c5_error_response_no_write_witness :
    store_item_name emptyDB 100 7 XivResponse.err
      = ({ emptyDB with item_cache := [(7, 100)] }, ResolveStep.remoteError) :=
  c5_error_response_no_write emptyDB 100 7 rfl rfl

/-- C10: `store_item_name` writes the current time into the cache before the
remote call, and the as-written freshness check accepts every past
timestamp.  So after one malformed/error response for an id — which
persisted nothing, the store still has no name for it — every subsequent
call for that id (at any time `now2` with `now < now2 + 30`, which holds for
every later instant) returns at the cache step with the state completely
unchanged: no store read, no remote lookup, for the process lifetime. -/
theorem c10_error_never_retried (db : StonksDatabase) (now item_id : Int)
    (hc : cacheFresh db now item_id = false)
    (hs : get_item_name db item_id = none)
    (calls : List (Int × XivResponse))
    (htimes : ∀ c ∈ calls, now < c.1 + 30) :
    (store_item_name db now item_id XivResponse.err).2 = ResolveStep.remoteError ∧
    get_item_name (store_item_name db now item_id XivResponse.err).1 item_id = none ∧
    runCalls (store_item_name db now item_id XivResponse.err).1 item_id calls
      = ((store_item_name db now item_id XivResponse.err).1,
          calls.map (fun _ => ResolveStep.cacheHit)) := by
  have he := store_item_name_err_eq hc hs
  refine ⟨by rw [he], by rw [he]; exact hs, ?_⟩
  apply runCalls_allCacheHit calls _ _ htimes
  rw [he]
  exact alookup_dictInsert_self ..

/-- C10 witness: after an error response for id `7` at time `100`, two later
calls — one with a not-found oracle, one a day later with a success oracle —
are both pure cache hits and nothing is ever stored for `7`. -/
theorem c10_error_never_retried_witness :
    (store_item_name emptyDB 100 7 XivResponse.err).2 = ResolveStep.remoteError ∧
    get_item_name (store_item_name emptyDB 100 7 XivResponse.err).1 7 = none ∧
    runCalls (store_item_name emptyDB 100 7 XivResponse.err).1 7
        [(101, XivResponse.notFound), (86500, XivResponse.success "Late")]
      = ((store_item_name emptyDB 100 7 XivResponse.err).1,
          [ResolveStep.cacheHit, ResolveStep.cacheHit]) := by
  have h := c10_error_never_retried emptyDB 100 7 rfl rfl
    [(101, XivResponse.notFound), (86500, XivResponse.success "Late")] (by decide)
  exact ⟨h.1, h.2.1, h.2.2⟩

/-- C8: `insert_world` is insert-or-ignore.  The first call on a fresh
`world_id` stores the passed name; a second call for the same `world_id`,
with any name whatsoever, is a total no-op — the state is literally
unchanged, so the first call's name survives and no error is possible. -/
theorem c8_insert_world_idempotent (db : StonksDatabase) (world_id : Int)
    (n1 n2 : Option String) (hfresh : alookup world_id db.worlds = none) :
    alookup world_id (insert_world db world_id n1).worlds = some n1 ∧
    insert_world (insert_world db world_id n1) world_id n2 = insert_world db world_id n1 ∧
    alookup world_id (insert_world (insert_world db world_id n1) world_id n2).worlds
      = some n1 := by
  have h2 : alookup world_id (insert_world db world_id n1).worlds = some n1 := by
    rw [insert_world_absent n1 hfresh]
    show alookup world_id (db.worlds ++ [(world_id, n1)]) = some n1
    rw [alookup_append_of_none _ hfresh]
    simp [alookup]
  have h3 : insert_world (insert_world db world_id n1) world_id n2
      = insert_world db world_id n1 :=
    insert_world_present n2 (by simp [h2])
  exact ⟨h2, h3, by rw [h3]; exact h2⟩

/-- C8 witness: world `402` registered as `"Alpha"`; re-registering it as
`"Beta"` is a no-op and the stored name stays `"Alpha"`. -/
theorem c8_insert_world_idempotent_witness :
    alookup 402 (insert_world emptyDB 402 (some "Alpha")).worlds = some (some "Alpha") ∧
    insert_world (insert_world emptyDB 402 (some "Alpha")) 402 (some "Beta")
      = insert_world emptyDB 402 (some "Alpha") ∧
    alookup 402 (insert_world (insert_world emptyDB 402 (some "Alpha")) 402
        (some "Beta")).worlds = some (some "Alpha") :=
  c8_insert_world_idempotent emptyDB 402 (some "Alpha") (some "Beta") rfl

/-- C9: `process_sale` reads `WORLDS[world_id]` before name resolution and
before the sales insert; when the world id is absent from the in-memory
bootstrap map the lookup raises `KeyError` and the call aborts with the
state exactly as it was — no item name and no sale row are stored for that
event, even though the schema itself enforces no foreign key. -/
theorem c9_unknown_world_aborts (worlds : List (Int × Option String)) (db : StonksDatabase)
    (now item_id world_id : Int) (sale : SaleEvent) (resp : Option String)
    (habsent : alookup world_id worlds = none) :
    process_sale worlds db now item_id world_id sale resp
      = (db, ProcessOutcome.worldKeyError) := by
  unfold process_sale
  rw [habsent]

/-- C9 witness: the bootstrap map knows world `402` only, so an event for
world `55` aborts with the state untouched. -/
theorem c9_unknown_world_aborts_witness :
    process_sale [(402, some "Alpha")] emptyDB 1000 7 55 ⟨1000, 500, 1, "B"⟩ (some "Name")
      = (emptyDB, ProcessOutcome.worldKeyError) :=
  c9_unknown_world_aborts [(402, some "Alpha")] emptyDB 1000 7 55 ⟨1000, 500, 1, "B"⟩
    (some "Name") rfl

/-- C7: when the configured region matches no worlds in the data-centre
directory, `get_worlds` halts the process (`exit(1)`, modelled by `none`) —
nothing is returned to subscribe on.  With at least one world it returns
the `{world_id: world_name}` map, whose entry for every region world is the
global directory's resolution of that id, and it registers every region
world in the `worlds` table. -/
theorem c7_get_worlds_bootstrap (db : StonksDatabase) (dcList : List DataCenter)
    (worldList : List WorldEntry) (dc : String) :
    (selectDcWorlds dcList dc = [] → get_worlds db dcList worldList dc = none) ∧
    (selectDcWorlds dcList dc ≠ [] →
      ∃ m db2, get_worlds db dcList worldList dc = some (m, db2) ∧
        ∀ w ∈ selectDcWorlds dcList dc,
          alookup w m = some (find_world_in_list worldList w) ∧
          (alookup w db2.worlds).isSome = true) := by
  constructor
  · intro h
    simp only [get_worlds, h]
    rfl
  · intro h
    have hlen : ¬ (selectDcWorlds dcList dc).length < 1 := by
      cases hx : selectDcWorlds dcList dc
      · exact absurd hx h
      · simp [hx]
    have he : get_worlds db dcList worldList dc
        = some ((selectDcWorlds dcList dc).foldl (getWorldsStep worldList) ([], db)) := by
      simp only [get_worlds]
      rw [if_neg hlen]
    refine ⟨((selectDcWorlds dcList dc).foldl (getWorldsStep worldList) ([], db)).1,
      ((selectDcWorlds dcList dc).foldl (getWorldsStep worldList) ([], db)).2,
      by rw [he], ?_⟩
    intro w hw
    exact getWorlds_fold_good worldList (selectDcWorlds dcList dc) ([], db) w (Or.inl hw)

/-- C7 witness: the region `"Chaos"` matches nothing, so bootstrap halts;
the region `"Light"` yields worlds `33` and `36`, both resolved from the
directory and registered. -/
theorem c7_get_worlds_bootstrap_witness :
    get_worlds emptyDB [⟨"Light", [33, 36]⟩] [⟨33, "Twintania"⟩, ⟨36, "Lich"⟩] "Chaos"
      = none ∧
    ∃ m db2,
      get_worlds emptyDB [⟨"Light", [33, 36]⟩] [⟨33, "Twintania"⟩, ⟨36, "Lich"⟩] "Light"
        = some (m, db2) ∧
      ∀ w ∈ selectDcWorlds [⟨"Light", [33, 36]⟩] "Light",
        alookup w m = some (find_world_in_list [⟨33, "Twintania"⟩, ⟨36, "Lich"⟩] w) ∧
        (alookup w db2.worlds).isSome = true :=
  ⟨(c7_get_worlds_bootstrap emptyDB [⟨"Light", [33, 36]⟩]
      [⟨33, "Twintania"⟩, ⟨36, "Lich"⟩] "Chaos").1 (by decide),
   (c7_get_worlds_bootstrap emptyDB [⟨"Light", [33, 36]⟩]
      [⟨33, "Twintania"⟩, ⟨36, "Lich"⟩] "Light").2 (by decide)⟩

/-- C6: the code evaluated at the failing input.  World `402` is in the
bootstrap map, the sale is fresh (`timestamp = now`), but the remote name
lookup returns a malformed response (no `Name_en` key): `scrape.py`
`store_item_name` raises `KeyError` out of `process_sale` before the sales
`INSERT`, so the call aborts with outcome `nameError`, the only mutation is
the `ITEM_LAST_CHECKED` cache write, and the sale is NOT persisted —
contradicting the specified policy that a resolution failure must not block
persistence of the sale. -/
theorem c6_name_failure_blocks_sale :
    process_sale [(402, some "Alpha")] emptyDB 1000000 5 402 ⟨1000000, 100, 1, "B"⟩ none
      = ({ emptyDB with item_cache := [(5, 1000000)] }, ProcessOutcome.nameError) ∧
    (process_sale [(402, some "Alpha")] emptyDB 1000000 5 402 ⟨1000000, 100, 1, "B"⟩
        none).1.sales = [] :=
  ⟨rfl, rfl⟩
